import Mathlib

/-!
Shallow embedding of the AWS Organizations OU management code:
  * `src/go.py` — class `AwsOrganizationalUnit` (resolver + lifecycle, moto-tested prototype)
  * `src/lib/ansible/modules/cloud/amazon/aws_organization_units.py` — class
    `AwsOrganization` (the effective, later-defined methods `_get_ou`, `get_ou`,
    `_create_ou`, `create_ou`, `delete_ou`, `get_root`) and the module entry point `main`.

The remote AWS Organizations service is modelled as a read-only `OrgState`; every
embedded operation returns its result together with the ordered list of remote
calls it issued, so that "no remote call is made" properties are provable.
Pagination is not observable to the code's logic (every paginator is exhausted or
short-circuits on first hit), so one logical `RemoteCall` stands for one
paginated query.
-/

deriving instance DecidableEq for Except

namespace AwsOrgUnits

/-- An OU descriptor as returned by the service: `{"Id": .., "Name": .., "Arn": ..}`. -/
structure OU where
  id : String
  name : String
  arn : String
deriving DecidableEq

/-- Possible outcomes of `describe_organizational_unit` for a given id:
found, a `ClientError` whose message contains `OrganizationalUnitNotFoundException`,
or any other `ClientError`. -/
inductive DescribeResult
  | found (ou : OU)
  | notFound
  | otherError
deriving DecidableEq

/-- One remote API call, as issued by the code. -/
inductive RemoteCall
  | listRoots
  | listOUsForParent (parentId : String)
  | listChildren (parentId : String) (childType : String)
  | describeOU (ouId : String)
  | createOU (parentId : String) (ouName : String)
  | deleteOU (ouId : String)
deriving DecidableEq

/-- A call that mutates the remote tree (create or delete). -/
def RemoteCall.isMutating : RemoteCall → Bool
  | .createOU _ _ => true
  | .deleteOU _ => true
  | _ => false

/-- The remote service state (read-only collaborator).
`childOUs` is `list_organizational_units_for_parent` (all pages concatenated);
`acctChildren` / `ouChildren` are `list_children` with `ChildType` `ACCOUNT` /
`ORGANIZATIONAL_UNIT`; `createResult pid n = none` models a `ClientError` from
`create_organizational_unit`, and `deleteOk` likewise for delete. -/
structure OrgState where
  roots : List OU
  childOUs : String → List OU
  acctChildren : String → List String
  ouChildren : String → List String
  describe : String → DescribeResult
  createResult : String → String → Option OU
  deleteOk : String → Bool

/-- Python `name.strip("/")`, equally `name.rstrip('/').lstrip('/')` as in the
ansible module's `get_ou`/`create_ou`: remove every trailing `'/'`, then every
leading `'/'`. -/
def stripSlashes (s : String) : String :=
  ⟨((s.data.reverse.dropWhile (· == '/')).reverse).dropWhile (· == '/')⟩

/-- Helper for `splitSlash`, structurally recursive over the characters. -/
def splitSlashAux : List Char → List String
  | [] => [""]
  | c :: cs =>
    let r := splitSlashAux cs
    if c = '/' then "" :: r
    else
      match r with
      | h :: t => (⟨c :: h.data⟩ : String) :: t
      | [] => [⟨[c]⟩]

/-- Python `x.split("/")`: split on every `"/"`, keeping empty segments, with
`"".split("/") == [""]`. -/
def splitSlash (x : String) : List String :=
  splitSlashAux x.data

/-- Python `x.split("/")[-1]`: the segment after the last `"/"` (the whole
string when it has no `"/"`). -/
def lastSlashSeg (x : String) : String :=
  (splitSlash x).getLastD ""

/-- Python `x.rsplit("/", 1)[0]`: everything before the last `"/"`, or the
whole string when it has no `"/"`. -/
def rsplitParent (n : String) : String :=
  let parts := splitSlash n
  if parts.length = 1 then n else String.intercalate "/" parts.dropLast

/-- Python `arn.startswith("arn:aws:organizations::")`; the ansible module
checks the same 23-character marker via `ou[:23] == "arn:aws:organizations::"`. -/
def isOrgArn (a : String) : Bool :=
  "arn:aws:organizations::".data.isPrefixOf a.data

/-- Python truthiness of an optional string argument (`if arn:` / `elif name:`):
`None` and `""` are falsy. -/
def truthy : Option String → Bool
  | none => false
  | some s => !s.isEmpty

/-! ## go.py: class AwsOrganizationalUnit -/

/-- The distinguishable raise sites of `go.py`.  `BotoClientError` and
`MissingOUIdentifier` name classes that are never defined in the file (the
defined classes are `BotoClientFailure` and `MissingOUIdentified`), so at
runtime those two raises produce a `NameError`; the constructors stand for the
corresponding raise sites. -/
inductive GoErr
  | MultipleRootsUnsupported
  | InvalidOUArn
  | BotoClientFailure
  | MissingOUIdentifier
  | CannotDeleteOUWithChildren
  | MissingRequiredParameter
  | ParentOrganizationalUnitDoesNotExist
  | BotoClientError
deriving DecidableEq

/-- `get_aws_organizational_unit_for_parent`: scan all pages of
`list_organizational_units_for_parent(ParentId=parent_id)` and return the first
child OU whose `Name` equals `ou_name` (Python `==`, case-sensitive), else `None`. -/
def getOuForParent (s : OrgState) (ouName parentId : String) : Option OU :=
  (s.childOUs parentId).find? (fun c => c.name == ouName)

/-- The loop body of `get_aws_organizational_unit_by_name`: walk the already
split path segments starting from `parentId`; on the first segment with no
match return `None` at once (one list call for that segment, none for later
segments); otherwise descend into the match and finally return it. -/
def goResolve (s : OrgState) (parentId : String) :
    List String → Option OU × List RemoteCall
  | [] => (none, [])
  | seg :: rest =>
    match getOuForParent s seg parentId with
    | none => (none, [.listOUsForParent parentId])
    | some ou =>
      match rest with
      | [] => (some ou, [.listOUsForParent parentId])
      | _ :: _ =>
        let r := goResolve s ou.id rest
        (r.1, .listOUsForParent parentId :: r.2)

/-- `get_aws_organizational_unit_by_name(name)`: split `name` on `"/"` and walk
the segments starting at the given root id. -/
def getByName (s : OrgState) (rootId name : String) : Option OU × List RemoteCall :=
  goResolve s rootId (splitSlash name)

/-- `get_aws_organizational_unit_by_arn(arn)`: require the fixed
`arn:aws:organizations::` marker (else raise `InvalidOUArn` with no remote
call); describe the segment after the last `"/"`; `...NotFoundException` maps
to `None`, any other `ClientError` raises `BotoClientFailure`. -/
def getByArn (s : OrgState) (arn : String) :
    Except GoErr (Option OU) × List RemoteCall :=
  if isOrgArn arn then
    let ouId := lastSlashSeg arn
    match s.describe ouId with
    | .found ou => (.ok (some ou), [.describeOU ouId])
    | .notFound => (.ok none, [.describeOU ouId])
    | .otherError => (.error .BotoClientFailure, [.describeOU ouId])
  else (.error .InvalidOUArn, [])

/-- The state of one `AwsOrganizationalUnit` instance after `__init__`. -/
structure GoInstance where
  name : Option String
  arn : Option String
  root : OU
  ou : Option OU
deriving DecidableEq

/-- `AwsOrganizationalUnit.__init__(name, arn)` combined with
`get_aws_organization_root`: list the roots first and require exactly one
(`len(roots) != 1` raises `MultipleRootsUnsupported`); then `if arn:` resolve
by ARN keeping the name as given, `elif name:` store `name.strip("/")` and
resolve by name, else raise at the `MissingOUIdentifier` site.  `if`/`elif`
use Python truthiness, so an empty string behaves like `None`. -/
def goInit (s : OrgState) (name arn : Option String) :
    Except GoErr GoInstance × List RemoteCall :=
  match s.roots with
  | [root] =>
    if truthy arn then
      let a := arn.getD ""
      let r := getByArn s a
      match r.1 with
      | .ok ou => (.ok ⟨name, arn, root, ou⟩, .listRoots :: r.2)
      | .error e => (.error e, .listRoots :: r.2)
    else if truthy name then
      let n := stripSlashes (name.getD "")
      let r := getByName s root.id n
      (.ok ⟨some n, arn, root, r.1⟩, .listRoots :: r.2)
    else (.error .MissingOUIdentifier, [.listRoots])
  | _ => (.error .MultipleRootsUnsupported, [.listRoots])

/-- `has_children`: `False` when the instance holds no OU; otherwise
`list_children` with `ACCOUNT` first (return `True` on the first non-empty
page, short-circuiting the second query), then `ORGANIZATIONAL_UNIT`. -/
def goHasChildren (s : OrgState) (inst : GoInstance) : Bool × List RemoteCall :=
  match inst.ou with
  | none => (false, [])
  | some ou =>
    if (s.acctChildren ou.id).isEmpty then
      (!(s.ouChildren ou.id).isEmpty,
        [.listChildren ou.id "ACCOUNT", .listChildren ou.id "ORGANIZATIONAL_UNIT"])
    else (true, [.listChildren ou.id "ACCOUNT"])

/-- `delete_aws_organizational_unit`: `True` at once when the OU is absent;
raise `CannotDeleteOUWithChildren` before any delete call when `has_children`;
otherwise issue `delete_organizational_unit` (a `ClientError` raises
`BotoClientFailure`). -/
def goDelete (s : OrgState) (inst : GoInstance) :
    Except GoErr Bool × List RemoteCall :=
  match inst.ou with
  | none => (.ok true, [])
  | some ou =>
    let hc := goHasChildren s inst
    if hc.1 then (.error .CannotDeleteOUWithChildren, hc.2)
    else if s.deleteOk ou.id then (.ok true, hc.2 ++ [.deleteOU ou.id])
    else (.error .BotoClientFailure, hc.2 ++ [.deleteOU ou.id])

/-- `create_aws_organizational_unit`: `True` at once when the OU already
exists; raise `MissingRequiredParameter` when the instance has no name; split
`self.name` into `parent_name = name.rsplit("/", 1)[0]` and
`ou_name = name.split("/")[-1]`; when `parent_name != ou_name` resolve the
parent by name and raise `ParentOrganizationalUnitDoesNotExist` (no create
call) when it is absent, otherwise the root is the parent; finally issue
`create_organizational_unit` (the source stores the raw response in `self.ou`;
we store the created descriptor, and a `ClientError` hits the undefined-name
`BotoClientError` raise site). -/
def goCreate (s : OrgState) (inst : GoInstance) :
    Except GoErr GoInstance × List RemoteCall :=
  match inst.ou with
  | some _ => (.ok inst, [])
  | none =>
    match inst.name with
    | none => (.error .MissingRequiredParameter, [])
    | some n =>
      let parentName := rsplitParent n
      let ouName := lastSlashSeg n
      if parentName ≠ ouName then
        let r := getByName s inst.root.id parentName
        match r.1 with
        | none => (.error .ParentOrganizationalUnitDoesNotExist, r.2)
        | some parent =>
          match s.createResult parent.id ouName with
          | some created =>
            (.ok { inst with ou := some created }, r.2 ++ [.createOU parent.id ouName])
          | none => (.error .BotoClientError, r.2 ++ [.createOU parent.id ouName])
      else
        match s.createResult inst.root.id ouName with
        | some created =>
          (.ok { inst with ou := some created }, [.createOU inst.root.id ouName])
        | none => (.error .BotoClientError, [.createOU inst.root.id ouName])

/-! ## aws_organization_units.py: class AwsOrganization and main

Python class bodies bind later `def`s over earlier ones, so the effective
methods of `AwsOrganization` are the ones below the separator comment:
`get_root`, `_get_ou`, `get_ou(name)`, `_create_ou`, `create_ou(name)`, plus
the earlier `delete_ou` / `organizational_unit_has_children`. -/

/-- The `module.fail_json` conditions reachable from the embedded ansible
functions, each identified by its message. -/
inductive AnsErr
  | multipleRoots
  | emptyRootsIndexError
  | ambiguousOUName
  | parentDoesNotExist
  | createFailed
  | deleteFailed
  | cannotDeleteWithChildren
  | describeFailed
deriving DecidableEq

/-- `get_root`: `list_roots`; fail with "Multiple roots not supported" when
`len(root_ids) > 1`, otherwise return `root_ids[0]` (which, on an empty list,
is a Python `IndexError`, modelled as `emptyRootsIndexError`). -/
def ansGetRoot (s : OrgState) : Except AnsErr OU × List RemoteCall :=
  match s.roots with
  | [] => (.error .emptyRootsIndexError, [.listRoots])
  | [r] => (.ok r, [.listRoots])
  | _ => (.error .multipleRoots, [.listRoots])

/-- The effective `get_ou_by_id(ou_id)` (the later definition, which shadows
the earlier one): `describe_organizational_unit`, with every
`BotoCoreError`/`ClientError` — the not-found exception included — caught and
turned into `fail_json_aws("Failed to describe organizational unit")`; on a
response, return `ou['OrganizationalUnit']` (the `ou is None` arm that would
fail with "Organizational unit does not exist" is dead code, since the client
either returns a response or raises). -/
def ansGetOuById (s : OrgState) (ouId : String) : Except AnsErr OU × List RemoteCall :=
  match s.describe ouId with
  | .found ou => (.ok ou, [.describeOU ouId])
  | .notFound => (.error .describeFailed, [.describeOU ouId])
  | .otherError => (.error .describeFailed, [.describeOU ouId])

/-- `get_ou_by_arn(arn)`: `arn.split("/")[-1]` passed to `get_ou_by_id`. -/
def ansGetOuByArn (s : OrgState) (arn : String) : Except AnsErr OU × List RemoteCall :=
  ansGetOuById s (lastSlashSeg arn)

/-- The routing decision of `AwsOrganization.__init__` on its `ou` argument:
`ou[:23] == "arn:aws:organizations::"` selects the ARN branch
(`get_ou_by_arn`); any other input falls to the name branch
(`elif self.ou_is_valid(ou)` — name-path handling; `ou_is_valid` is defined
nowhere in the class, so at runtime that line is an `AttributeError`, but in
no reading is a non-prefixed input an invalid-ARN failure). -/
def ansInitArnRoute (ou : String) : Bool :=
  isOrgArn ou

/-- `_get_ou(name, parent)`: collect every page of
`list_organizational_units_for_parent(ParentId=parent)`, filter on
`f['Name'] == name`; exactly one match returns it, none returns `None`, and
two or more fail with "None unique organizational unit names within a parent
are not supported". -/
def ansGetOuSingle (s : OrgState) (name parentId : String) :
    Except AnsErr (Option OU) × List RemoteCall :=
  match (s.childOUs parentId).filter (fun f => f.name == name) with
  | [m] => (.ok (some m), [.listOUsForParent parentId])
  | [] => (.ok none, [.listOUsForParent parentId])
  | _ => (.error .ambiguousOUName, [.listOUsForParent parentId])

/-- The loop of `get_ou`: walk the split path with `_get_ou`, returning `None`
at the first segment without a match (later segments unqueried), descending on
a unique match, and propagating the ambiguity failure.  (The `[]` case is
unreachable: `split` never yields an empty list.) -/
def ansResolve (s : OrgState) (parentId : String) :
    List String → Except AnsErr (Option OU) × List RemoteCall
  | [] => (.ok none, [])
  | seg :: rest =>
    let r := ansGetOuSingle s seg parentId
    match r.1 with
    | .error e => (.error e, r.2)
    | .ok none => (.ok none, r.2)
    | .ok (some ou) =>
      match rest with
      | [] => (.ok (some ou), r.2)
      | _ :: _ =>
        let r2 := ansResolve s ou.id rest
        (r2.1, r.2 ++ r2.2)

/-- `get_ou(name)`: strip the name with `rstrip('/').lstrip('/')`, split on
`"/"` and walk from the organization root id. -/
def ansGetOu (s : OrgState) (rootId name : String) :
    Except AnsErr (Option OU) × List RemoteCall :=
  ansResolve s rootId (splitSlash (stripSlashes name))

/-- `create_ou(name)`: strip and split the path; a single-segment path is
created under the root id; otherwise the parent path `ou_path[:-1]` must
resolve via `get_ou`, else fail with "Parent organizational unit does not
exist" (no create call); then `_create_ou(ou_path[-1], parent_id)` issues the
create, a remote error failing with "Failed to create organizational unit". -/
def ansCreateOu (s : OrgState) (rootId name : String) :
    Except AnsErr OU × List RemoteCall :=
  let ouName := stripSlashes name
  let ouPath := splitSlash ouName
  let leaf := ouPath.getLastD ""
  if ouPath.length = 1 then
    match s.createResult rootId leaf with
    | some created => (.ok created, [.createOU rootId leaf])
    | none => (.error .createFailed, [.createOU rootId leaf])
  else
    let parentPath := String.intercalate "/" ouPath.dropLast
    let r := ansGetOu s rootId parentPath
    match r.1 with
    | .error e => (.error e, r.2)
    | .ok none => (.error .parentDoesNotExist, r.2)
    | .ok (some parent) =>
      match s.createResult parent.id leaf with
      | some created => (.ok created, r.2 ++ [.createOU parent.id leaf])
      | none => (.error .createFailed, r.2 ++ [.createOU parent.id leaf])

/-- `delete_ou` together with `organizational_unit_has_children`: fail with
"Cannot delete organizational unit before deleting all children objects" when
the resolved OU's `Accounts` or `OrganizationalUnits` children (the data
`get_children` fetches with `list_children`) are non-empty — issuing no delete
call; otherwise issue `delete_organizational_unit`, a remote error failing
with "Failed to delete organizational unit". -/
def ansDeleteOu (s : OrgState) (ou : OU) : Except AnsErr Bool × List RemoteCall :=
  if !(s.acctChildren ou.id).isEmpty || !(s.ouChildren ou.id).isEmpty then
    (.error .cannotDeleteWithChildren, [])
  else if s.deleteOk ou.id then (.ok true, [.deleteOU ou.id])
  else (.error .deleteFailed, [.deleteOU ou.id])

/-- The `result` dict built by `main`: `name`, `ou` (empty dict when absent,
modelled as `none`), `changed`, `state`. -/
structure MainResult where
  name : String
  ou : Option OU
  changed : Bool
  state : String
deriving DecidableEq

/-- The decision part of `main` (lines after the OU has been resolved):
initialize `changed=False`, echo the resolved state, then for `state=absent`
mark `changed` and delete unless in check mode, and for `state=present` mark
`changed` and create unless in check mode; an OU that is already in the
requested state is left untouched with `changed=False`.  (`main` never resets
`state` to `present` after a create — the embedded code keeps that quirk.) -/
def ansMainDecide (s : OrgState) (ouName ouState : String) (checkMode : Bool)
    (root : OU) (ou : Option OU) : Except AnsErr MainResult × List RemoteCall :=
  let base : MainResult := { name := ouName, ou := none, changed := false, state := "absent" }
  let r1 : MainResult :=
    match ou with
    | none => base
    | some o => { base with state := "present", ou := some o }
  if ouState = "absent" then
    match ou with
    | none => (.ok r1, [])
    | some o =>
      let r2 := { r1 with changed := true }
      if checkMode then (.ok r2, [])
      else
        let d := ansDeleteOu s o
        match d.1 with
        | .error e => (.error e, d.2)
        | .ok _ => (.ok { r2 with state := "absent" }, d.2)
  else if ouState = "present" then
    match ou with
    | none =>
      let r2 := { r1 with changed := true }
      if checkMode then (.ok r2, [])
      else
        let c := ansCreateOu s root.id ouName
        match c.1 with
        | .error e => (.error e, c.2)
        | .ok created => (.ok { r2 with ou := some created }, c.2)
    | some _ => (.ok r1, [])
  else (.ok r1, [])

/-- `main`: resolve the organization root, resolve the target OU by name via
`get_ou`, then act via `ansMainDecide`; every `fail_json` aborts the run. -/
def ansMain (s : OrgState) (ouName ouState : String) (checkMode : Bool) :
    Except AnsErr MainResult × List RemoteCall :=
  let r0 := ansGetRoot s
  match r0.1 with
  | .error e => (.error e, r0.2)
  | .ok root =>
    let r1 := ansGetOu s root.id ouName
    match r1.1 with
    | .error e => (.error e, r0.2 ++ r1.2)
    | .ok ou =>
      let r2 := ansMainDecide s ouName ouState checkMode root ou
      (r2.1, r0.2 ++ r1.2 ++ r2.2)

/-! ## Concrete organization states used by witnesses and counterexamples -/

/-- Root descriptor shared by the concrete states. -/
def rootEx : OU :=
  ⟨"r-1", "Root", "arn:aws:organizations::123456789012:root/o-x/r-1"⟩

/-- A second root, for the multi-root state. -/
def rootEx2 : OU :=
  ⟨"r-2", "Root2", "arn:aws:organizations::123456789012:root/o-x/r-2"⟩

def ouProd : OU := ⟨"ou-prod", "Prod", "arn:aws:organizations::123456789012:ou/o-x/ou-prod"⟩

def ouIT : OU := ⟨"ou-it", "IT", "arn:aws:organizations::123456789012:ou/o-x/ou-it"⟩

def dup1 : OU := ⟨"ou-d1", "Dup", "arn:aws:organizations::123456789012:ou/o-x/ou-d1"⟩

def dup2 : OU := ⟨"ou-d2", "Dup", "arn:aws:organizations::123456789012:ou/o-x/ou-d2"⟩

/-- The spec's running example: root with child OU `Prod` (holding account
`Sec` and child OU `IT`); `describe` knows `ou-prod`, errors on `ou-err`. -/
def sEx : OrgState where
  roots := [rootEx]
  childOUs := fun pid => if pid = "r-1" then [ouProd] else if pid = "ou-prod" then [ouIT] else []
  acctChildren := fun pid => if pid = "ou-prod" then ["acct-sec"] else []
  ouChildren := fun pid => if pid = "ou-prod" then ["ou-it"] else []
  describe := fun i =>
    if i = "ou-prod" then .found ouProd else if i = "ou-err" then .otherError else .notFound
  createResult := fun _ n => some ⟨"ou-new", n, "arn-new"⟩
  deleteOk := fun _ => true

/-- One root and an otherwise empty tree; creates succeed. -/
def sEmptyTree : OrgState where
  roots := [rootEx]
  childOUs := fun _ => []
  acctChildren := fun _ => []
  ouChildren := fun _ => []
  describe := fun _ => .notFound
  createResult := fun _ n => some ⟨"ou-new", n, "arn-new"⟩
  deleteOk := fun _ => true

/-- One root whose children contain two OUs that share the name `Dup`. -/
def sDup : OrgState where
  roots := [rootEx]
  childOUs := fun pid => if pid = "r-1" then [dup1, dup2] else []
  acctChildren := fun _ => []
  ouChildren := fun _ => []
  describe := fun _ => .notFound
  createResult := fun _ n => some ⟨"ou-new", n, "arn-new"⟩
  deleteOk := fun _ => true

/-- A state whose service reports two organization roots. -/
def sTwoRoots : OrgState where
  roots := [rootEx, rootEx2]
  childOUs := fun _ => []
  acctChildren := fun _ => []
  ouChildren := fun _ => []
  describe := fun _ => .notFound
  createResult := fun _ n => some ⟨"ou-new", n, "arn-new"⟩
  deleteOk := fun _ => true

/-- The mutating (create/delete) calls among a call trace. -/
def mutCalls (cs : List RemoteCall) : List RemoteCall :=
  cs.filter (fun c => c.isMutating)

/-- `tgt` is reached from parent `pid` by matching every path segment in order
against that parent's child OUs (by exact, case-sensitive display name) — the
full-path success certificate of both resolvers; an empty path reaches nothing. -/
def ChainTo (s : OrgState) : String → List String → OU → Prop
  | _, [], _ => False
  | pid, [seg], tgt => tgt ∈ s.childOUs pid ∧ tgt.name = seg
  | pid, seg :: rest, tgt =>
    ∃ ou, ou ∈ s.childOUs pid ∧ ou.name = seg ∧ ChainTo s ou.id rest tgt

example : stripSlashes "/Prod/IT/" = "Prod/IT" := by decide

example : splitSlash "Prod/IT" = ["Prod", "IT"] := by decide

example : (getByName sEx "r-1" "Prod/IT").1 = some ouIT := by decide

example : (getByName sEx "r-1" "Prod/it").1 = none := by decide

example : getByArn sEx "NotAnArn" = (.error .InvalidOUArn, []) := by decide

example :
    getByArn sEx "arn:aws:organizations::123456789012:ou/o-x/ou-fake" =
      (.ok none, [.describeOU "ou-fake"]) := by decide

example :
    goInit sEx (some "Prod") none =
      (.ok ⟨some "Prod", none, rootEx, some ouProd⟩,
        [.listRoots, .listOUsForParent "r-1"]) := by decide

example :
    ansMain sEmptyTree "A" "present" false =
      (.ok { name := "A", ou := some ⟨"ou-new", "A", "arn-new"⟩, changed := true,
             state := "absent" },
        [.listRoots, .listOUsForParent "r-1", .createOU "r-1" "A"]) := by decide

/-! ## Helper lemmas -/

theorem mutCalls_append (cs ds : List RemoteCall) :
    mutCalls (cs ++ ds) = mutCalls cs ++ mutCalls ds :=
  List.filter_append cs ds

theorem mutCalls_listOUs (pid : String) :
    mutCalls [RemoteCall.listOUsForParent pid] = [] := rfl

theorem find?_eq_head?_filter {α : Type} (p : α → Bool) (l : List α) :
    l.find? p = (l.filter p).head? := by
  induction l with
  | nil => rfl
  | cons a t ih =>
    cases h : p a
    · rw [List.find?_cons_of_neg _ (by simp [h]), List.filter_cons_of_neg (by simp [h]), ih]
    · rw [List.find?_cons_of_pos _ h, List.filter_cons_of_pos h]
      rfl

theorem stripSlashes_slash_prepend (p : String) :
    stripSlashes ("/" ++ p) = stripSlashes p := by
  have hdata : ("/" ++ p).data = '/' :: p.data := rfl
  unfold stripSlashes
  rw [hdata, List.reverse_cons, List.dropWhile_append]
  rcases h : p.data.reverse.dropWhile (· == '/') with _ | ⟨c, t⟩
  · simp
  · simp [List.dropWhile_cons]

theorem stripSlashes_append_slash (p : String) :
    stripSlashes (p ++ "/") = stripSlashes p := by
  have hdata : (p ++ "/").data = p.data ++ ['/'] := rfl
  unfold stripSlashes
  rw [hdata, List.reverse_append]
  simp [List.dropWhile_cons]

theorem getOuForParent_some (s : OrgState) (seg pid : String) (ou : OU)
    (h : getOuForParent s seg pid = some ou) :
    ou ∈ s.childOUs pid ∧ ou.name = seg := by
  refine ⟨List.mem_of_find?_eq_some h, ?_⟩
  have hp := List.find?_some h
  simpa using hp

theorem goResolve_some_chain (s : OrgState) (segs : List String) :
    ∀ pid ou cs, goResolve s pid segs = (some ou, cs) → ChainTo s pid segs ou := by
  induction segs with
  | nil => intro pid ou cs h; simp [goResolve] at h
  | cons seg rest ih =>
    intro pid ou cs h
    unfold goResolve at h
    cases hf : getOuForParent s seg pid with
    | none => rw [hf] at h; simp at h
    | some o =>
      rw [hf] at h
      obtain ⟨hmem, hname⟩ := getOuForParent_some s seg pid o hf
      cases rest with
      | nil =>
        simp at h
        rw [h.1] at hmem hname
        exact ⟨hmem, hname⟩
      | cons r rs =>
        simp at h
        exact ⟨o, hmem, hname, ih o.id ou _ (by rw [← h.1])⟩

theorem mem_of_filter_eq_singleton {l : List OU} {p : OU → Bool} {m : OU}
    (h : l.filter p = [m]) : m ∈ l ∧ p m = true := by
  have hm : m ∈ l.filter p := by rw [h]; exact List.mem_singleton_self m
  exact ⟨(List.mem_filter.mp hm).1, (List.mem_filter.mp hm).2⟩

theorem ansGetOuSingle_ok_some (s : OrgState) (seg pid : String) (ou : OU) (cs : List RemoteCall)
    (h : ansGetOuSingle s seg pid = (.ok (some ou), cs)) :
    ou ∈ s.childOUs pid ∧ ou.name = seg := by
  unfold ansGetOuSingle at h
  rcases hfil : (s.childOUs pid).filter (fun f => f.name == seg) with _ | ⟨m, _ | ⟨m2, t⟩⟩ <;>
    rw [hfil] at h <;> simp at h
  obtain ⟨h1, -⟩ := h
  subst h1
  obtain ⟨hmem, hp⟩ := mem_of_filter_eq_singleton hfil
  exact ⟨hmem, by simpa using hp⟩

theorem ansResolve_some_chain (s : OrgState) (segs : List String) :
    ∀ pid ou cs, ansResolve s pid segs = (.ok (some ou), cs) → ChainTo s pid segs ou := by
  induction segs with
  | nil => intro pid ou cs h; simp [ansResolve] at h
  | cons seg rest ih =>
    intro pid ou cs h
    simp only [ansResolve] at h
    cases hf : (ansGetOuSingle s seg pid).1 with
    | error e => rw [hf] at h; simp at h
    | ok o? =>
      rw [hf] at h
      cases o? with
      | none => simp at h
      | some o =>
        have hfull : ansGetOuSingle s seg pid = (.ok (some o), (ansGetOuSingle s seg pid).2) := by
          rw [← hf]
        obtain ⟨hmem, hname⟩ := ansGetOuSingle_ok_some s seg pid o _ hfull
        cases rest with
        | nil =>
          simp at h
          rw [h.1] at hmem hname
          exact ⟨hmem, hname⟩
        | cons r rs =>
          simp at h
          exact ⟨o, hmem, hname, ih o.id ou _ (by rw [← h.1])⟩

theorem goResolve_calls_not_mutating (s : OrgState) (segs : List String) :
    ∀ pid, mutCalls (goResolve s pid segs).2 = [] := by
  induction segs with
  | nil => intro pid; rfl
  | cons seg rest ih =>
    intro pid
    simp only [goResolve]
    cases getOuForParent s seg pid with
    | none => rfl
    | some o =>
      cases rest with
      | nil => rfl
      | cons r rs =>
        simp only [mutCalls, List.filter_cons]
        exact ih o.id

theorem ansGetOuSingle_calls (s : OrgState) (seg pid : String) :
    (ansGetOuSingle s seg pid).2 = [.listOUsForParent pid] := by
  unfold ansGetOuSingle
  split <;> rfl

theorem ansResolve_calls_not_mutating (s : OrgState) (segs : List String) :
    ∀ pid, mutCalls (ansResolve s pid segs).2 = [] := by
  induction segs with
  | nil => intro pid; rfl
  | cons seg rest ih =>
    intro pid
    simp only [ansResolve]
    cases (ansGetOuSingle s seg pid).1 with
    | error e => simp [ansGetOuSingle_calls, mutCalls, RemoteCall.isMutating]
    | ok o? =>
      cases o? with
      | none => simp [ansGetOuSingle_calls, mutCalls, RemoteCall.isMutating]
      | some o =>
        cases rest with
        | nil => simp [ansGetOuSingle_calls, mutCalls, RemoteCall.isMutating]
        | cons r rs =>
          show mutCalls ((ansGetOuSingle s seg pid).2 ++ (ansResolve s o.id (r :: rs)).2) = []
          rw [mutCalls_append, ansGetOuSingle_calls, ih o.id]
          rfl

theorem ansGetOu_calls_not_mutating (s : OrgState) (rootId name : String) :
    mutCalls (ansGetOu s rootId name).2 = [] :=
  ansResolve_calls_not_mutating s _ rootId

theorem ansGetRoot_calls (s : OrgState) : (ansGetRoot s).2 = [.listRoots] := by
  unfold ansGetRoot
  rcases s.roots with _ | ⟨a, _ | ⟨b, t⟩⟩ <;> rfl

theorem ansCreateOu_ok_has_mutating (s : OrgState) (rid n : String) (c : OU)
    (cs : List RemoteCall) (h : ansCreateOu s rid n = (.ok c, cs)) :
    mutCalls cs ≠ [] := by
  simp only [ansCreateOu] at h
  split at h
  · split at h
    · rw [Prod.mk.injEq] at h
      rw [← h.2]
      simp [mutCalls, RemoteCall.isMutating]
    · rw [Prod.mk.injEq] at h
      exact absurd h.1 (by simp)
  · split at h
    · rw [Prod.mk.injEq] at h
      exact absurd h.1 (by simp)
    · rw [Prod.mk.injEq] at h
      exact absurd h.1 (by simp)
    · split at h
      · rw [Prod.mk.injEq] at h
        rw [← h.2]
        simp [mutCalls, List.filter_append, RemoteCall.isMutating]
      · rw [Prod.mk.injEq] at h
        exact absurd h.1 (by simp)

theorem ansMainDecide_check_no_calls (s : OrgState) (ouName ouState : String)
    (root : OU) (ou : Option OU) :
    (ansMainDecide s ouName ouState true root ou).2 = [] := by
  simp only [ansMainDecide]
  by_cases h1 : ouState = "absent"
  · rw [if_pos h1]; cases ou <;> rfl
  · rw [if_neg h1]
    by_cases h2 : ouState = "present"
    · rw [if_pos h2]; cases ou <;> rfl
    · rw [if_neg h2]

/-- The `changed` flag an `ok` run of the decision part reports is a function
of the requested state and whether the OU resolved, independent of check mode. -/
theorem ansMainDecide_ok_changed (s : OrgState) (ouName ouState : String)
    (ck : Bool) (root : OU) (ou : Option OU) (r : MainResult) (cs : List RemoteCall)
    (h : ansMainDecide s ouName ouState ck root ou = (.ok r, cs)) :
    r.changed = (if ouState = "absent" then ou.isSome
                 else if ouState = "present" then ou.isNone else false) := by
  simp only [ansMainDecide] at h
  by_cases h1 : ouState = "absent"
  · rw [if_pos h1] at h
    rw [if_pos h1]
    cases ou with
    | none => simp at h; rw [← h.1]; rfl
    | some o =>
      cases ck with
      | true => simp at h; rw [← h.1]; rfl
      | false =>
        simp only [Bool.false_eq_true, if_false] at h
        cases hd : (ansDeleteOu s o).1 with
        | error e => rw [hd] at h; simp at h
        | ok b => rw [hd] at h; simp at h; rw [← h.1]; rfl
  · rw [if_neg h1] at h
    rw [if_neg h1]
    by_cases h2 : ouState = "present"
    · rw [if_pos h2] at h
      rw [if_pos h2]
      cases ou with
      | some o => simp at h; rw [← h.1]; rfl
      | none =>
        cases ck with
        | true => simp at h; rw [← h.1]; rfl
        | false =>
          simp only [Bool.false_eq_true, if_false] at h
          cases hc : (ansCreateOu s root.id ouName).1 with
          | error e => rw [hc] at h; simp at h
          | ok created => rw [hc] at h; simp at h; rw [← h.1]; rfl
    · rw [if_neg h2] at h
      rw [if_neg h2]
      cases ou <;> (simp at h; rw [← h.1])

/-- In a real (non-check) run, the decision part reports `changed = true`
exactly when its trace contains a mutating call. -/
theorem ansMainDecide_ok_mut (s : OrgState) (n st : String) (root : OU) (ou : Option OU)
    (r : MainResult) (cs : List RemoteCall)
    (h : ansMainDecide s n st false root ou = (.ok r, cs)) :
    r.changed = true ↔ mutCalls cs ≠ [] := by
  simp only [ansMainDecide] at h
  by_cases h1 : st = "absent"
  · rw [if_pos h1] at h
    cases ou with
    | none =>
      simp at h
      rw [← h.1, h.2]
      simp [mutCalls]
    | some o =>
      simp only [Bool.false_eq_true, if_false] at h
      cases hd : ansDeleteOu s o with
      | mk d1 d2 =>
        rw [hd] at h
        cases d1 with
        | error e => simp at h
        | ok b =>
          simp at h
          rw [← h.1, ← h.2]
          unfold ansDeleteOu at hd
          split at hd
          · simp at hd
          · split at hd <;>
              (rw [Prod.mk.injEq] at hd
               rw [← hd.2]
               simp [mutCalls, RemoteCall.isMutating])
  · rw [if_neg h1] at h
    by_cases h2 : st = "present"
    · rw [if_pos h2] at h
      cases ou with
      | some o =>
        simp at h
        rw [← h.1, h.2]
        simp [mutCalls]
      | none =>
        simp only [Bool.false_eq_true, if_false] at h
        cases hc : ansCreateOu s root.id n with
        | mk c1 c2 =>
          rw [hc] at h
          cases c1 with
          | error e => simp at h
          | ok created =>
            simp at h
            rw [← h.1, ← h.2]
            have := ansCreateOu_ok_has_mutating s root.id n created c2 hc
            simp [this]
    · rw [if_neg h2] at h
      cases ou <;>
        (simp at h
         rw [← h.1, h.2]
         simp [mutCalls])

theorem truthy_none : truthy none = false := rfl

theorem truthy_some_iff (p : String) : truthy (some p) = true ↔ p ≠ "" := by
  show (!p.isEmpty) = true ↔ p ≠ ""
  rw [Bool.not_eq_true']
  constructor
  · intro h hcon
    subst hcon
    exact absurd h (by decide)
  · intro h
    cases he : p.isEmpty
    · rfl
    · exact absurd ((String.isEmpty_iff p).mp he) h

theorem slash_prepend_ne_empty (p : String) : "/" ++ p ≠ "" := by
  intro hcon
  have hd : ('/' :: p.data : List Char) = [] := congrArg String.data hcon
  simp at hd

theorem append_slash_ne_empty (p : String) : p ++ "/" ≠ "" := by
  intro hcon
  have hd : (p.data ++ ['/'] : List Char) = [] := congrArg String.data hcon
  simp at hd

/-! ## Claims -/

/-- C1: for a multi-segment target path the create operation must resolve the
parent path and fail with `ParentOrganizationalUnitDoesNotExist` (issuing no
remote create call) when it does not exist, while a single-segment path is
created under the organization root.  The ansible `create_ou` behaves exactly
so (conjuncts 1–3, on a tree with no OU named `A`), but go.py's
`create_aws_organizational_unit` decides "single segment" by comparing
`name.rsplit("/", 1)[0]` with `name.split("/")[-1]`, so the two-segment path
`"A/A"` — whose parent path equals its leaf name — takes the root-parent
branch: with `"A"` absent it succeeds and issues `createOU` under the root
without any parent lookup instead of failing (conjuncts 4–5). -/
theorem c1_create_parent_resolution :
    ansCreateOu sEmptyTree "r-1" "A/B" =
      (.error .parentDoesNotExist, [RemoteCall.listOUsForParent "r-1"]) ∧
    ansCreateOu sEmptyTree "r-1" "A/A" =
      (.error .parentDoesNotExist, [RemoteCall.listOUsForParent "r-1"]) ∧
    ansCreateOu sEmptyTree "r-1" "B" =
      (.ok ⟨"ou-new", "B", "arn-new"⟩, [RemoteCall.createOU "r-1" "B"]) ∧
    goInit sEmptyTree (some "A/A") none =
      (.ok ⟨some "A/A", none, rootEx, none⟩,
        [RemoteCall.listRoots, RemoteCall.listOUsForParent "r-1"]) ∧
    goCreate sEmptyTree ⟨some "A/A", none, rootEx, none⟩ =
      (.ok ⟨some "A/A", none, rootEx, some ⟨"ou-new", "A", "arn-new"⟩⟩,
        [RemoteCall.createOU "r-1" "A"]) := by
  refine ⟨by decide, by decide, by decide, by decide, by decide⟩

/-- C8: when the remote service reports more than one organization root, the
go.py constructor, the ansible `get_root` and the ansible entry point all
terminate at once with the multiple-roots failure, their whole trace being the
single `list_roots` call — so no path segment is ever resolved. -/
theorem c8_multiple_roots (s : OrgState) (a b : OU) (t : List OU)
    (hroots : s.roots = a :: b :: t) :
    (∀ name arn, goInit s name arn =
        (.error .MultipleRootsUnsupported, [RemoteCall.listRoots])) ∧
    ansGetRoot s = (.error .multipleRoots, [RemoteCall.listRoots]) ∧
    (∀ name st ck, ansMain s name st ck =
        (.error .multipleRoots, [RemoteCall.listRoots])) := by
  have hg : ansGetRoot s = (.error .multipleRoots, [RemoteCall.listRoots]) := by
    simp [ansGetRoot, hroots]
  refine ⟨?_, hg, ?_⟩
  · intro name arn
    simp [goInit, hroots]
  · intro name st ck
    simp [ansMain, hg]

/-- C8 witness: the multi-root state `sTwoRoots` fails every operation with
the multiple-roots condition after only the `list_roots` call. -/
theorem c8_multiple_roots_witness :
    goInit sTwoRoots (some "Prod") none =
      (.error .MultipleRootsUnsupported, [RemoteCall.listRoots]) ∧
    ansGetRoot sTwoRoots = (.error .multipleRoots, [RemoteCall.listRoots]) ∧
    ansMain sTwoRoots "Prod" "present" false =
      (.error .multipleRoots, [RemoteCall.listRoots]) := by
  obtain ⟨h1, h2, h3⟩ := c8_multiple_roots sTwoRoots rootEx rootEx2 [] rfl
  exact ⟨h1 (some "Prod") none, h2, h3 "Prod" "present" false⟩

/-- C9 counterexample: an empty target name does not raise a
missing-required-parameter condition.  The ansible entry point run with
`name=""`, `state=present` resolves and then creates an OU with the empty name
under the root, issuing remote calls and succeeding; and go.py's constructor,
hitting Python falsiness of `""`, raises the (undefined-name)
`MissingOUIdentifier` — not `MissingRequiredParameter` — and only after the
`list_roots` remote call. -/
theorem c9_counterexample :
    ansMain sEmptyTree "" "present" false =
      (.ok { name := "", ou := some ⟨"ou-new", "", "arn-new"⟩, changed := true,
             state := "absent" },
        [RemoteCall.listRoots, RemoteCall.listOUsForParent "r-1",
          RemoteCall.createOU "r-1" ""]) ∧
    goInit sEmptyTree (some "") none =
      (.error .MissingOUIdentifier, [RemoteCall.listRoots]) := by
  exact ⟨by decide, by decide⟩

/-- C9 (amended): in go.py a missing name is rejected — constructing with
neither name nor ARN (or with an empty, hence falsy, name) raises at the
`MissingOUIdentifier` site directly after the initial `list_roots` call, and
`create_aws_organizational_unit` on an instance with no name and no resolved
OU raises `MissingRequiredParameter` before issuing any remote call; an empty
string name is otherwise not rejected by create or delete. -/
theorem c9_missing_name (s : OrgState) (root : OU) (hroots : s.roots = [root]) :
    goInit s none none = (.error .MissingOUIdentifier, [RemoteCall.listRoots]) ∧
    goInit s (some "") none = (.error .MissingOUIdentifier, [RemoteCall.listRoots]) ∧
    (∀ inst : GoInstance, inst.ou = none → inst.name = none →
        goCreate s inst = (.error .MissingRequiredParameter, [])) := by
  refine ⟨?_, ?_, ?_⟩
  · simp [goInit, hroots, truthy]
  · simp [goInit, hroots, truthy, String.isEmpty]
  · intro inst hou hname
    simp [goCreate, hou, hname]

/-- C9 witness: the missing-name raises on the one-root empty tree. -/
theorem c9_missing_name_witness :
    goInit sEmptyTree none none =
      (.error .MissingOUIdentifier, [RemoteCall.listRoots]) ∧
    goCreate sEmptyTree ⟨none, some "arn:aws:organizations::1:ou/o-x/ou-gone", rootEx, none⟩ =
      (.error .MissingRequiredParameter, []) := by
  obtain ⟨h1, -, h3⟩ := c9_missing_name sEmptyTree rootEx rfl
  exact ⟨h1, h3 ⟨none, some "arn:aws:organizations::1:ou/o-x/ou-gone", rootEx, none⟩ rfl rfl⟩

/-- C10 counterexample: for the degenerate empty path the equivalence fails in
go.py — `name="/"` is truthy, strips to `""` and resolves it (one list call,
no error), while `name=""` is falsy and raises at the `MissingOUIdentifier`
site, so `"/" + ""` does not behave like `""`. -/
theorem c10_counterexample :
    goInit sEmptyTree (some "/") none =
      (.ok ⟨some "", none, rootEx, none⟩,
        [RemoteCall.listRoots, RemoteCall.listOUsForParent "r-1"]) ∧
    goInit sEmptyTree (some "") none =
      (.error .MissingOUIdentifier, [RemoteCall.listRoots]) := by
  exact ⟨by decide, by decide⟩

/-- C10 (amended): leading and trailing `"/"` characters are stripped before
resolution and creation, so `"/" + p` and `p + "/"` behave exactly like `p`:
unconditionally for the stripping function itself and for the ansible
`get_ou` and `create_ou`, and for go.py's constructor for every non-empty
path `p` (for the empty path the constructor's Python truthiness check fires
first, per the counterexample). -/
theorem c10_slash_stripping :
    (∀ p, stripSlashes ("/" ++ p) = stripSlashes p ∧
        stripSlashes (p ++ "/") = stripSlashes p) ∧
    (∀ s rootId p, ansGetOu s rootId ("/" ++ p) = ansGetOu s rootId p ∧
        ansGetOu s rootId (p ++ "/") = ansGetOu s rootId p) ∧
    (∀ s rootId p, ansCreateOu s rootId ("/" ++ p) = ansCreateOu s rootId p ∧
        ansCreateOu s rootId (p ++ "/") = ansCreateOu s rootId p) ∧
    (∀ (s : OrgState) (p : String), p ≠ "" →
        goInit s (some ("/" ++ p)) none = goInit s (some p) none ∧
        goInit s (some (p ++ "/")) none = goInit s (some p) none) := by
  refine ⟨fun p => ⟨stripSlashes_slash_prepend p, stripSlashes_append_slash p⟩, ?_, ?_, ?_⟩
  · intro s rootId p
    constructor <;>
      simp [ansGetOu, stripSlashes_slash_prepend, stripSlashes_append_slash]
  · intro s rootId p
    constructor <;>
      simp [ansCreateOu, stripSlashes_slash_prepend, stripSlashes_append_slash]
  · intro s p hp
    have hpt : truthy (some p) = true := (truthy_some_iff p).mpr hp
    have h1 : truthy (some ("/" ++ p)) = true :=
      (truthy_some_iff _).mpr (slash_prepend_ne_empty p)
    have h2 : truthy (some (p ++ "/")) = true :=
      (truthy_some_iff _).mpr (append_slash_ne_empty p)
    rcases hroots : s.roots with _ | ⟨a, _ | ⟨b, t⟩⟩ <;>
      simp [goInit, hroots, truthy_none, hpt, h1, h2, stripSlashes_slash_prepend,
        stripSlashes_append_slash]

/-- C10 witness: the stripping equivalences at the concrete path `Prod/IT`. -/
theorem c10_slash_stripping_witness :
    stripSlashes ("/" ++ "Prod/IT") = stripSlashes "Prod/IT" ∧
    ansGetOu sEx "r-1" ("/" ++ "Prod/IT") = ansGetOu sEx "r-1" "Prod/IT" ∧
    ansCreateOu sEx "r-1" ("Prod/IT" ++ "/") = ansCreateOu sEx "r-1" "Prod/IT" ∧
    goInit sEx (some ("/" ++ "Prod/IT")) none = goInit sEx (some "Prod/IT") none := by
  obtain ⟨h1, h2, h3, h4⟩ := c10_slash_stripping
  exact ⟨(h1 "Prod/IT").1, (h2 sEx "r-1" "Prod/IT").1, (h3 sEx "r-1" "Prod/IT").2,
    (h4 sEx "Prod/IT" (by decide)).1⟩

/-- C3: deleting an existing OU that has at least one child account or child
OU fails with the cannot-delete-with-children condition in both
implementations, with no mutating call in the trace (in particular no remote
delete), so the remote tree is untouched and deletion never cascades. -/
theorem c3_delete_nonempty_fails (s : OrgState) (inst : GoInstance) (ou : OU)
    (hou : inst.ou = some ou)
    (hch : s.acctChildren ou.id ≠ [] ∨ s.ouChildren ou.id ≠ []) :
    (goDelete s inst).1 = .error .CannotDeleteOUWithChildren ∧
    mutCalls (goDelete s inst).2 = [] ∧
    (ansDeleteOu s ou).1 = .error .cannotDeleteWithChildren ∧
    mutCalls (ansDeleteOu s ou).2 = [] := by
  have hbool : (!(s.acctChildren ou.id).isEmpty || !(s.ouChildren ou.id).isEmpty) = true := by
    rcases hch with hA | hO
    · have : (s.acctChildren ou.id).isEmpty = false := by
        cases he : (s.acctChildren ou.id).isEmpty
        · rfl
        · exact absurd (List.isEmpty_iff.mp he) hA
      simp [this]
    · have : (s.ouChildren ou.id).isEmpty = false := by
        cases he : (s.ouChildren ou.id).isEmpty
        · rfl
        · exact absurd (List.isEmpty_iff.mp he) hO
      simp [this]
  have hgoch : (goHasChildren s inst).1 = true ∧ mutCalls (goHasChildren s inst).2 = [] := by
    simp only [goHasChildren, hou]
    cases he : (s.acctChildren ou.id).isEmpty
    · rw [if_neg (by simp)]
      exact ⟨rfl, rfl⟩
    · rw [if_pos rfl]
      refine ⟨?_, rfl⟩
      have hO : s.ouChildren ou.id ≠ [] := by
        rcases hch with hA | hO'
        · exact absurd (List.isEmpty_iff.mp he) hA
        · exact hO'
      cases heo : (s.ouChildren ou.id).isEmpty
      · rfl
      · exact absurd (List.isEmpty_iff.mp heo) hO
  refine ⟨?_, ?_, ?_, ?_⟩
  · simp only [goDelete, hou]
    rw [if_pos hgoch.1]
  · simp only [goDelete, hou]
    rw [if_pos hgoch.1]
    exact hgoch.2
  · simp only [ansDeleteOu]
    rw [if_pos hbool]
  · simp only [ansDeleteOu]
    rw [if_pos hbool]
    rfl

/-- C3 witness: on the running example, `Prod` holds the account `Sec` and
the OU `IT`, and deleting it fails without a delete call in either variant. -/
theorem c3_delete_nonempty_fails_witness :
    (goDelete sEx ⟨some "Prod", none, rootEx, some ouProd⟩).1 =
      .error .CannotDeleteOUWithChildren ∧
    mutCalls (goDelete sEx ⟨some "Prod", none, rootEx, some ouProd⟩).2 = [] ∧
    (ansDeleteOu sEx ouProd).1 = .error .cannotDeleteWithChildren ∧
    mutCalls (ansDeleteOu sEx ouProd).2 = [] :=
  c3_delete_nonempty_fails sEx ⟨some "Prod", none, rootEx, some ouProd⟩ ouProd rfl
    (Or.inl (by decide))

/-- C4 counterexample: with two child OUs both named `Dup` under the root,
the go.py resolver does not fail — its per-parent lookup and full name
resolution both return the first matching child `dup1`. -/
theorem c4_counterexample :
    dup1.name = "Dup" ∧ dup2.name = "Dup" ∧ dup1 ≠ dup2 ∧
    sDup.childOUs "r-1" = [dup1, dup2] ∧
    getOuForParent sDup "Dup" "r-1" = some dup1 ∧
    getByName sDup "r-1" "Dup" = (some dup1, [RemoteCall.listOUsForParent "r-1"]) := by
  refine ⟨by decide, by decide, by decide, by decide, by decide, by decide⟩

/-- C4 (amended): when a parent has two or more child OUs with the same
display name, the ansible resolver `_get_ou` fails with the ambiguous-name
condition rather than picking one, while go.py's
`get_aws_organizational_unit_for_parent` instead returns the first matching
child of the listing (the head of the name-filtered children). -/
theorem c4_ambiguous_name (s : OrgState) (name pid : String)
    (h : 2 ≤ ((s.childOUs pid).filter (fun f => f.name == name)).length) :
    (ansGetOuSingle s name pid).1 = .error .ambiguousOUName ∧
    getOuForParent s name pid =
      ((s.childOUs pid).filter (fun f => f.name == name)).head? := by
  constructor
  · simp only [ansGetOuSingle]
    rcases hfil : (s.childOUs pid).filter (fun f => f.name == name) with
        _ | ⟨m, _ | ⟨m2, t⟩⟩
    · rw [hfil] at h; simp at h
    · rw [hfil] at h; simp at h
    · rw [hfil]
  · exact find?_eq_head?_filter _ _

/-- C4 witness: the amended behavior at the duplicate-name state. -/
theorem c4_ambiguous_name_witness :
    (ansGetOuSingle sDup "Dup" "r-1").1 = .error .ambiguousOUName ∧
    getOuForParent sDup "Dup" "r-1" =
      ((sDup.childOUs "r-1").filter (fun f => f.name == "Dup")).head? :=
  c4_ambiguous_name sDup "Dup" "r-1" (by decide)

/-- C5 counterexample: the claim fails on the ansible module's ARN path.  On
the running example, resolving the well-formed ARN with the nonexistent
trailing id `ou-fake` through `get_ou_by_arn`/`get_ou_by_id` aborts with the
generic "Failed to describe organizational unit" failure — a not-found
describe response is an error there, never the absent result; and the
non-prefixed input `NotAnArn` takes the constructor's name branch, so an
invalid-ARN failure is not raised for it. -/
theorem c5_counterexample :
    ansGetOuByArn sEx "arn:aws:organizations::123456789012:ou/o-x/ou-fake" =
      (.error .describeFailed, [RemoteCall.describeOU "ou-fake"]) ∧
    ansInitArnRoute "NotAnArn" = false ∧
    ansInitArnRoute "arn:aws:organizations::123456789012:ou/o-x/ou-fake" = true := by
  refine ⟨by decide, by decide, by decide⟩

/-- C5 (amended): go.py's `get_aws_organizational_unit_by_arn` behaves as the
claim states — a non-prefixed input fails with `InvalidOUArn` and no remote
call; otherwise the segment after the last `/` is looked up with a single
describe call, a not-found response is the absent result (`none`, not an
error) and any other remote failure raises the generic `BotoClientFailure`.
The ansible module diverges: an input without the `arn:aws:organizations::`
marker is routed to name handling (never an invalid-ARN failure), and its
effective `get_ou_by_id` turns every describe `ClientError` — the not-found
exception included — into the generic describe-failure condition instead of
an absent result. -/
theorem c5_arn_resolution (s : OrgState) (arn : String) :
    (isOrgArn arn = false → getByArn s arn = (.error .InvalidOUArn, []) ∧
        ansInitArnRoute arn = false) ∧
    (isOrgArn arn = true →
      ansInitArnRoute arn = true ∧
      (∀ ou, s.describe (lastSlashSeg arn) = .found ou →
          getByArn s arn = (.ok (some ou), [RemoteCall.describeOU (lastSlashSeg arn)]) ∧
          ansGetOuByArn s arn = (.ok ou, [RemoteCall.describeOU (lastSlashSeg arn)])) ∧
      (s.describe (lastSlashSeg arn) = .notFound →
          getByArn s arn = (.ok none, [RemoteCall.describeOU (lastSlashSeg arn)]) ∧
          ansGetOuByArn s arn =
            (.error .describeFailed, [RemoteCall.describeOU (lastSlashSeg arn)])) ∧
      (s.describe (lastSlashSeg arn) = .otherError →
          getByArn s arn =
            (.error .BotoClientFailure, [RemoteCall.describeOU (lastSlashSeg arn)]) ∧
          ansGetOuByArn s arn =
            (.error .describeFailed, [RemoteCall.describeOU (lastSlashSeg arn)]))) := by
  constructor
  · intro h
    exact ⟨by simp [getByArn, h], h⟩
  · intro h
    refine ⟨h, ?_, ?_, ?_⟩
    · intro ou hd
      exact ⟨by simp [getByArn, h, hd], by simp [ansGetOuByArn, ansGetOuById, hd]⟩
    · intro hd
      exact ⟨by simp [getByArn, h, hd], by simp [ansGetOuByArn, ansGetOuById, hd]⟩
    · intro hd
      exact ⟨by simp [getByArn, h, hd], by simp [ansGetOuByArn, ansGetOuById, hd]⟩

/-- C5 witness: `NotAnArn` is rejected by go.py with no call and name-routed
by the ansible constructor; a well-formed ARN with an unknown trailing id
resolves to absent in go.py but to the describe failure in the ansible
variant; a describe error surfaces go.py's generic client failure; a known id
resolves to its OU in both. -/
theorem c5_arn_resolution_witness :
    (getByArn sEx "NotAnArn" = (.error .InvalidOUArn, []) ∧
      ansInitArnRoute "NotAnArn" = false) ∧
    (getByArn sEx "arn:aws:organizations::123456789012:ou/o-x/ou-fake" =
        (.ok none, [RemoteCall.describeOU "ou-fake"]) ∧
      ansGetOuByArn sEx "arn:aws:organizations::123456789012:ou/o-x/ou-fake" =
        (.error .describeFailed, [RemoteCall.describeOU "ou-fake"])) ∧
    (getByArn sEx "arn:aws:organizations::123456789012:ou/o-x/ou-err" =
        (.error .BotoClientFailure, [RemoteCall.describeOU "ou-err"]) ∧
      ansGetOuByArn sEx "arn:aws:organizations::123456789012:ou/o-x/ou-err" =
        (.error .describeFailed, [RemoteCall.describeOU "ou-err"])) ∧
    (getByArn sEx "arn:aws:organizations::123456789012:ou/o-x/ou-prod" =
        (.ok (some ouProd), [RemoteCall.describeOU "ou-prod"]) ∧
      ansGetOuByArn sEx "arn:aws:organizations::123456789012:ou/o-x/ou-prod" =
        (.ok ouProd, [RemoteCall.describeOU "ou-prod"])) := by
  refine ⟨(c5_arn_resolution sEx "NotAnArn").1 (by decide), ?_, ?_, ?_⟩
  · exact (((c5_arn_resolution sEx
      "arn:aws:organizations::123456789012:ou/o-x/ou-fake").2 (by decide)).2.2.1 (by decide))
  · exact (((c5_arn_resolution sEx
      "arn:aws:organizations::123456789012:ou/o-x/ou-err").2 (by decide)).2.2.2 (by decide))
  · exact (((c5_arn_resolution sEx
      "arn:aws:organizations::123456789012:ou/o-x/ou-prod").2 (by decide)).2.1 ouProd
        (by decide))

/-- C2: name-path resolution starts at the organization root over the
"/"-split segments (conjunct 1, definitional); a segment with no
case-sensitive exact match under the current parent returns the absent result
at once, the trace holding only that parent's single list query and nothing
for later segments (conjuncts 2 and 5, for go.py and the ansible resolver);
any per-segment match is an exact-name child of the current parent
(conjunct 3); and a returned terminal descriptor is certified by a full
`ChainTo` walk matching every segment in order — never a partial match
(conjuncts 4 and 6). -/
theorem c2_name_resolution :
    (∀ s rootId name, getByName s rootId name = goResolve s rootId (splitSlash name)) ∧
    (∀ s pid seg (rest : List String), getOuForParent s seg pid = none →
        goResolve s pid (seg :: rest) = (none, [RemoteCall.listOUsForParent pid])) ∧
    (∀ s pid seg ou, getOuForParent s seg pid = some ou →
        ou ∈ s.childOUs pid ∧ ou.name = seg) ∧
    (∀ s pid segs ou cs, goResolve s pid segs = (some ou, cs) → ChainTo s pid segs ou) ∧
    (∀ s pid seg (rest : List String) cs, ansGetOuSingle s seg pid = (.ok none, cs) →
        ansResolve s pid (seg :: rest) = (.ok none, [RemoteCall.listOUsForParent pid])) ∧
    (∀ s pid segs ou cs, ansResolve s pid segs = (.ok (some ou), cs) →
        ChainTo s pid segs ou) := by
  refine ⟨fun s rootId name => rfl, ?_, ?_, ?_, ?_, ?_⟩
  · intro s pid seg rest h
    cases rest <;> simp [goResolve, h]
  · exact fun s pid seg ou h => getOuForParent_some s seg pid ou h
  · exact fun s pid segs ou cs h => goResolve_some_chain s segs pid ou cs h
  · intro s pid seg rest cs h
    have h1 : (ansGetOuSingle s seg pid).1 = .ok none := by rw [h]
    cases rest <;> simp [ansResolve, h1, ansGetOuSingle_calls]
  · exact fun s pid segs ou cs h => ansResolve_some_chain s segs pid ou cs h

/-- C2 witness: on the running example, a missing first segment stops
resolution after one query in both resolvers, and the resolved descriptors of
`Prod/IT` and `Prod` carry full-path certificates. -/
theorem c2_name_resolution_witness :
    goResolve sEx "r-1" ["NoSuch", "IT"] = (none, [RemoteCall.listOUsForParent "r-1"]) ∧
    ChainTo sEx "r-1" ["Prod", "IT"] ouIT ∧
    ansResolve sEx "r-1" ["NoSuch", "IT"] =
      (.ok none, [RemoteCall.listOUsForParent "r-1"]) ∧
    ChainTo sEx "r-1" ["Prod"] ouProd := by
  refine ⟨?_, ?_, ?_, ?_⟩
  · exact c2_name_resolution.2.1 sEx "r-1" "NoSuch" ["IT"] (by decide)
  · exact c2_name_resolution.2.2.2.1 sEx "r-1" ["Prod", "IT"] ouIT
      [RemoteCall.listOUsForParent "r-1", RemoteCall.listOUsForParent "ou-prod"] (by decide)
  · exact c2_name_resolution.2.2.2.2.1 sEx "r-1" "NoSuch" ["IT"]
      [RemoteCall.listOUsForParent "r-1"] (by decide)
  · exact c2_name_resolution.2.2.2.2.2 sEx "r-1" ["Prod"] ouProd
      [RemoteCall.listOUsForParent "r-1"] (by decide)

theorem mutCalls_listRoots : mutCalls [RemoteCall.listRoots] = [] := rfl

theorem mutCalls_nil : mutCalls [] = [] := rfl

theorem mutCalls_cons_listRoots (cs : List RemoteCall) :
    mutCalls (RemoteCall.listRoots :: cs) = mutCalls cs := rfl

/-- C6: with check mode enabled the entry point issues no mutating remote
call whatsoever, and whenever both a check run and a real run on the same
state return a result, they report the same `changed` value (the prospective
change). -/
theorem c6_check_mode (s : OrgState) (name st : String) :
    mutCalls (ansMain s name st true).2 = [] ∧
    (∀ r r', (ansMain s name st false).1 = .ok r →
        (ansMain s name st true).1 = .ok r' → r'.changed = r.changed) := by
  constructor
  · simp only [ansMain]
    cases h0 : (ansGetRoot s).1 with
    | error e => simp [ansGetRoot_calls, mutCalls_listRoots]
    | ok root =>
      cases h1 : (ansGetOu s root.id name).1 with
      | error e =>
        simp [h1, mutCalls_append, mutCalls_cons_listRoots, ansGetRoot_calls,
          mutCalls_listRoots, ansGetOu_calls_not_mutating]
      | ok ou =>
        simp [h1, mutCalls_append, mutCalls_cons_listRoots, ansGetRoot_calls,
          mutCalls_listRoots, ansGetOu_calls_not_mutating, ansMainDecide_check_no_calls,
          mutCalls_nil]
  · intro r r'
    simp only [ansMain]
    cases h0 : (ansGetRoot s).1 with
    | error e => intro h h'; simp at h
    | ok root =>
      cases h1 : (ansGetOu s root.id name).1 with
      | error e => intro h h'; simp [h1] at h
      | ok ou =>
        intro h h'
        simp only [h1] at h h'
        have hm : (ansMainDecide s name st false root ou).1 = .ok r := h
        have hm' : (ansMainDecide s name st true root ou).1 = .ok r' := h'
        have hfull : ansMainDecide s name st false root ou =
            (.ok r, (ansMainDecide s name st false root ou).2) := by rw [← hm]
        have hfull' : ansMainDecide s name st true root ou =
            (.ok r', (ansMainDecide s name st true root ou).2) := by rw [← hm']
        rw [ansMainDecide_ok_changed s name st false root ou r _ hfull,
          ansMainDecide_ok_changed s name st true root ou r' _ hfull']

/-- C6 witness: a check-mode create run on the empty tree issues only read
calls and reports the same `changed = true` as the real run. -/
theorem c6_check_mode_witness :
    mutCalls (ansMain sEmptyTree "A" "present" true).2 = [] ∧
    ({ name := "A", ou := none, changed := true, state := "absent"} : MainResult).changed =
      ({ name := "A", ou := some ⟨"ou-new", "A", "arn-new"⟩, changed := true,
         state := "absent"} : MainResult).changed := by
  refine ⟨(c6_check_mode sEmptyTree "A" "present").1, ?_⟩
  exact (c6_check_mode sEmptyTree "A" "present").2
    { name := "A", ou := some ⟨"ou-new", "A", "arn-new"⟩, changed := true, state := "absent"}
    { name := "A", ou := none, changed := true, state := "absent"}
    (by decide) (by decide)

/-- C7: in a real (non-check) run the returned `changed` is true exactly when
the trace contains a mutating (create/delete) call (conjunct 1); requesting
`absent` on an already absent OU succeeds and reports `changed = false`
(conjunct 2); requesting `present` on an existing OU succeeds, reports
`changed = false` and echoes the existing descriptor (conjunct 3). -/
theorem c7_changed_iff (s : OrgState) (name st : String) :
    (∀ r, (ansMain s name st false).1 = .ok r →
        (r.changed = true ↔ mutCalls (ansMain s name st false).2 ≠ [])) ∧
    (∀ root, (ansGetRoot s).1 = .ok root → (ansGetOu s root.id name).1 = .ok none →
        st = "absent" → ∀ ck, (ansMain s name st ck).1 =
          .ok { name := name, ou := none, changed := false, state := "absent" }) ∧
    (∀ root ou, (ansGetRoot s).1 = .ok root →
        (ansGetOu s root.id name).1 = .ok (some ou) → st = "present" →
        ∀ ck, (ansMain s name st ck).1 =
          .ok { name := name, ou := some ou, changed := false, state := "present" }) := by
  refine ⟨?_, ?_, ?_⟩
  · intro r
    simp only [ansMain]
    cases h0 : (ansGetRoot s).1 with
    | error e => intro h; simp at h
    | ok root =>
      cases h1 : (ansGetOu s root.id name).1 with
      | error e => intro h; simp [h1] at h
      | ok ou =>
        intro h
        simp only [h1] at h ⊢
        have hm : (ansMainDecide s name st false root ou).1 = .ok r := h
        have hfull : ansMainDecide s name st false root ou =
            (.ok r, (ansMainDecide s name st false root ou).2) := by rw [← hm]
        have hiff := ansMainDecide_ok_mut s name st root ou r _ hfull
        rw [mutCalls_append, mutCalls_append, ansGetRoot_calls, mutCalls_listRoots,
          ansGetOu_calls_not_mutating]
        simpa using hiff
  · intro root h0 h1 hst ck
    subst hst
    simp [ansMain, h0, h1, ansMainDecide]
  · intro root ou h0 h1 hst ck
    subst hst
    simp [ansMain, h0, h1, ansMainDecide]

/-- C7 witness: a real create run on the empty tree reports `changed = true`
with a mutating call in its trace; delete-when-absent and
create-when-existing both report `changed = false`, the latter echoing the
existing descriptor. -/
theorem c7_changed_iff_witness :
    (({ name := "A", ou := some ⟨"ou-new", "A", "arn-new"⟩, changed := true,
        state := "absent"} : MainResult).changed = true ↔
      mutCalls (ansMain sEmptyTree "A" "present" false).2 ≠ []) ∧
    (ansMain sEx "NoSuch" "absent" false).1 =
      .ok { name := "NoSuch", ou := none, changed := false, state := "absent" } ∧
    (ansMain sEx "Prod" "present" false).1 =
      .ok { name := "Prod", ou := some ouProd, changed := false, state := "present" } := by
  refine ⟨?_, ?_, ?_⟩
  · exact (c7_changed_iff sEmptyTree "A" "present").1
      { name := "A", ou := some ⟨"ou-new", "A", "arn-new"⟩, changed := true,
        state := "absent"} (by decide)
  · exact (c7_changed_iff sEx "NoSuch" "absent").2.1 rootEx (by decide) (by decide) rfl false
  · exact (c7_changed_iff sEx "Prod" "present").2.2 rootEx ouProd (by decide) (by decide)
      rfl false

end AwsOrgUnits
